import Mathlib

/-!
Shallow embedding of the pip-tools sources (piptools/utils.py,
piptools/scripts/sync.py, piptools/scripts/compile.py) together with models,
taken from the specification, of the parts of the package that are present
here only through their callers and tests (piptools/sync.py merge/diff/sync
and the exception hierarchy).

Python strings are embedded as Lean strings; the character-level operations
used by the code (str.lower, str.replace with a one-character pattern,
str.endswith) are embedded as maps over the character list.
-/

namespace PipTools

/-- Embedding of Python str.lower restricted to the ASCII case mapping:
each character is lowercased independently. -/
def pyLower (s : String) : String :=
  ⟨s.data.map Char.toLower⟩

/-- The per-character action of str.replace with pattern an underscore and
replacement a dash: a one-character pattern makes replace a map over the
characters. -/
def underscoreToDash (c : Char) : Char :=
  if c = '_' then '-' else c

/-- Embedding of the call s.replace of utils.py line 60: every underscore
becomes a dash. -/
def pyReplaceUnderscore (s : String) : String :=
  ⟨s.data.map underscoreToDash⟩

/-- Embedding of Python str.endswith as a suffix test on the character
list. -/
def pyEndsWith (s suffix : String) : Bool :=
  suffix.data.isSuffixOf s.data

/-! ## Data model of utils.py

An InstallRequirement (from pip) is embedded with the fields utils.py
reads: the editable flag, the optional parsed requirement (name, version
specifiers, extras), the optional link of a URL/editable requirement
(embedded as its URL string, the value of str on the link), the extras
and the hash options mapping (an ordered association list, as a Python
dict preserves insertion order). -/

structure Specifier where
  operator : String
  version : String
deriving DecidableEq

structure Requirement where
  name : String
  specifiers : List Specifier
  extras : List String
deriving DecidableEq

/-- A pkg_resources Distribution as read by key_from_req: its key field is
the project name lowercased (the pkg_resources contract, external to this
code base, stated as a hypothesis where it is needed). -/
structure Distribution where
  project_name : String
  key : String
deriving DecidableEq

/-- The Union of Distribution and Requirement accepted by key_from_req. -/
inductive ReqOrDist where
  | dist (d : Distribution)
  | req (r : Requirement)
deriving DecidableEq

structure InstallRequirement where
  editable : Bool
  req : Option Requirement
  link : Option String
  extras : List String
  hash_options : List (String × List String)
  constraint : Bool := false
deriving DecidableEq

/-- Embeds utils.py key_from_req: pick the key of a Distribution or the
name of a Requirement, then replace underscores by dashes and lowercase. -/
def key_from_req : ReqOrDist → String
  | .dist d => pyLower (pyReplaceUnderscore d.key)
  | .req r => pyLower (pyReplaceUnderscore r.name)

/-- Embeds utils.py key_from_ireq.  The source returns str of the link when
the requirement is absent and a link is present, asserts otherwise that the
requirement is present and delegates to key_from_req; the assertion failure
is embedded as none. -/
def key_from_ireq (ireq : InstallRequirement) : Option String :=
  match ireq.req, ireq.link with
  | none, some l => some l
  | some r, _ => some (key_from_req (.req r))
  | none, none => none

/-- The specifier set of an InstallRequirement, read through its parsed
requirement (pip property InstallRequirement.specifier); only consulted
after the source has checked that the requirement is present. -/
def specifierOf (ireq : InstallRequirement) : List Specifier :=
  (ireq.req.map Requirement.specifiers).getD []

/-- Embeds utils.py is_pinned_requirement. -/
def is_pinned_requirement (ireq : InstallRequirement) : Bool :=
  if ireq.editable then false
  else if ireq.req.isNone || (specifierOf ireq).length != 1 then false
  else
    match (specifierOf ireq).head? with
    | some spec =>
        (spec.operator == "==" || spec.operator == "===") && !(pyEndsWith spec.version ".*")
    | none => false

/-- Python sorted on a list of strings (lexicographic by code point). -/
def sortedStrings (l : List String) : List String :=
  List.insertionSort (fun a b => a ≤ b) l

/-- Embeds utils.py as_tuple.  The TypeError raised on a non-pinned
requirement is embedded as the error branch carrying its message. -/
def as_tuple (ireq : InstallRequirement) :
    Except String (String × String × List String) :=
  if is_pinned_requirement ireq then
    match key_from_ireq ireq, (specifierOf ireq).head? with
    | some name, some spec => .ok (name, spec.version, sortedStrings ireq.extras)
    | _, _ => .error "unreachable"
  else .error "Expected a pinned InstallRequirement"

/-- Model of pip install_req_from_line applied to the pin line built by
make_install_requirement (pip parsing is an external collaborator; its
behaviour is embedded only on lines of the exact shape
name[sorted extras]==version that make_install_requirement constructs):
the parsed requirement has the given name, the single specifier
== version, and the given extras. -/
def install_req_from_pin_line (name : String) (extras : List String)
    (version : String) (constraint : Bool) : InstallRequirement :=
  { editable := false
    req := some { name := name
                  specifiers := [{ operator := "==", version := version }]
                  extras := extras }
    link := none
    extras := extras
    hash_options := []
    constraint := constraint }

/-- Embeds utils.py make_install_requirement: the extras are sorted into
the constructed line, which is then parsed back. -/
def make_install_requirement (name version : String) (extras : List String)
    (constraint : Bool) : InstallRequirement :=
  install_req_from_pin_line name (sortedStrings extras) version constraint

/-- Embeds utils.py get_hashes_from_ireq: the nested loop appending
one algorithm:hexdigest string per pair. -/
def get_hashes_from_ireq (ireq : InstallRequirement) : List String :=
  ireq.hash_options.foldl
    (fun result p => p.2.foldl (fun acc h => acc ++ [p.1 ++ ":" ++ h]) result) []

/-- The (algorithm, hexdigest) pairs carried by a requirement's hash
options, in order and with multiplicity. -/
def hashPairs (ireq : InstallRequirement) : List (String × String) :=
  ireq.hash_options.flatMap (fun p => p.2.map (fun h => (p.1, h)))

/-! ## Version specifiers and markers for the sync merge model

piptools/sync.py is not among the sources here (only its caller
scripts/sync.py and its tests are), so merge, diff and sync are modelled
from the specification.  A version is modelled as a rational number: a
dense unbounded linear order, matching the dense order on version strings
that the specification's satisfiability talk presupposes.  A specifier is
an operator together with a version; an environment marker is a comparison
on one named platform attribute. -/

inductive VOp where
  | lt | le | eq | ge | gt
deriving DecidableEq

structure VSpec where
  op : VOp
  version : ℚ
deriving DecidableEq

/-- A version satisfies a specifier. -/
def vsHolds (v : ℚ) (s : VSpec) : Prop :=
  match s.op with
  | .lt => v < s.version
  | .le => v ≤ s.version
  | .eq => v = s.version
  | .ge => s.version ≤ v
  | .gt => s.version < v

/-- Decision procedure for joint satisfiability of two specifiers: there is
a version satisfying both.  Its agreement with vsHolds is proved below. -/
def pairSat (a b : VSpec) : Bool :=
  match a.op, b.op with
  | .eq, .eq => decide (a.version = b.version)
  | .eq, .lt => decide (a.version < b.version)
  | .eq, .le => decide (a.version ≤ b.version)
  | .eq, .ge => decide (b.version ≤ a.version)
  | .eq, .gt => decide (b.version < a.version)
  | .lt, .eq => decide (b.version < a.version)
  | .le, .eq => decide (b.version ≤ a.version)
  | .ge, .eq => decide (a.version ≤ b.version)
  | .gt, .eq => decide (a.version < b.version)
  | .lt, .lt => true
  | .lt, .le => true
  | .le, .lt => true
  | .le, .le => true
  | .ge, .ge => true
  | .ge, .gt => true
  | .gt, .ge => true
  | .gt, .gt => true
  | .lt, .gt => decide (b.version < a.version)
  | .lt, .ge => decide (b.version < a.version)
  | .le, .gt => decide (b.version < a.version)
  | .le, .ge => decide (b.version ≤ a.version)
  | .gt, .lt => decide (a.version < b.version)
  | .ge, .lt => decide (a.version < b.version)
  | .gt, .le => decide (a.version < b.version)
  | .ge, .le => decide (a.version ≤ b.version)

/-- An environment marker: a comparison on one named platform attribute,
such as python_version. -/
structure MarkerAtom where
  var : String
  op : VOp
  value : ℚ
deriving DecidableEq

/-- A marker holds in an environment (an assignment of a version-like value
to every platform attribute); an absent marker always holds. -/
def mHolds (env : String → ℚ) : Option MarkerAtom → Prop
  | none => True
  | some a => vsHolds (env a.var) ⟨a.op, a.value⟩

/-- Modelled from the spec: two markers are provably mutually exclusive
(cannot both be true on the same platform) when they constrain the same
attribute by jointly unsatisfiable comparisons; the correspondence with
mHolds is proved below. -/
def markersExclusive : Option MarkerAtom → Option MarkerAtom → Bool
  | some a, some b =>
      decide (a.var = b.var) && !(pairSat ⟨a.op, a.value⟩ ⟨b.op, b.value⟩)
  | _, _ => false

/-- A RequirementSpec as consumed by the sync merge: normalized package
key, specifier set, optional environment marker, extras. -/
structure SyncReq where
  key : String
  specs : List VSpec
  marker : Option MarkerAtom
  extras : List String := []
deriving DecidableEq

/-- Modelled from the spec: the specifier sets of two requirements for the
same package are compatible when they are pairwise satisfiable together
(no allowed-version range excludes the other's). -/
def specsCompatible (a b : List VSpec) : Bool :=
  a.all fun sa => b.all fun sb => pairSat sa sb

/-- Modelled from the spec: the error taxonomy of the missing
piptools/exceptions.py, following the error-handling design section;
IncompatibleRequirements carries the two conflicting specs. -/
inductive PipToolsError where
  | incompatibleRequirements (a b : SyncReq)
  | noCandidateFound (key : String)
  | tooManyRounds (n : Nat)
  | otherError (msg : String)
deriving DecidableEq

/-- Modelled from the spec: fold one requirement into the merged set.  A
same-key entry that is marker-isolated from the newcomer is kept separate;
a compatible one is combined into a single entry (specifier sets joined,
extras united); an incompatible non-marker-isolated one raises
IncompatibleRequirements unless ignore_conflicts is set, in which case the
later source wins. -/
def insertReq (ignore_conflicts : Bool) (r : SyncReq) :
    List SyncReq → Except PipToolsError (List SyncReq)
  | [] => .ok [r]
  | e :: rest =>
      if e.key = r.key ∧ markersExclusive e.marker r.marker = false then
        if specsCompatible e.specs r.specs then
          .ok ({ e with specs := e.specs ++ r.specs
                        extras := e.extras ++ r.extras } :: rest)
        else if ignore_conflicts then
          .ok (r :: rest)
        else .error (.incompatibleRequirements e r)
      else
        match insertReq ignore_conflicts r rest with
        | .ok rest2 => .ok (e :: rest2)
        | .error err => .error err

/-- Modelled from the spec: sync merge combines requirement sources keyed
by normalized package name. -/
def merge (reqs : List SyncReq) (ignore_conflicts : Bool) :
    Except PipToolsError (List SyncReq) :=
  reqs.foldlM (fun acc r => insertReq ignore_conflicts r acc) []

/-- An installed distribution: external snapshot fact. -/
structure InstalledDist where
  key : String
  version : ℚ
  extras : List String := []
deriving DecidableEq

/-- The single exact version a merged target entry pins, when it does. -/
def pinnedVersion (r : SyncReq) : Option ℚ :=
  match r.specs with
  | [s] => if s.op = .eq then some s.version else none
  | _ => none

/-- Modelled from the spec: sync diff.  Installed distributions absent
from the target by key, or present with a different exact version/extras,
are uninstalled; target entries absent from the installed set, or present
with a mismatch, are installed.  Extras equality is set equality, compared
on sorted lists. -/
def diff (target : List SyncReq) (installed : List InstalledDist) :
    List SyncReq × List InstalledDist :=
  let to_uninstall := installed.filter fun d =>
    match target.find? (fun t => decide (t.key = d.key)) with
    | none => true
    | some t =>
        decide ¬(pinnedVersion t = some d.version ∧
          sortedStrings t.extras = sortedStrings d.extras)
  let to_install := target.filter fun t =>
    match installed.find? (fun d => decide (d.key = t.key)) with
    | none => true
    | some d =>
        decide ¬(pinnedVersion t = some d.version ∧
          sortedStrings t.extras = sortedStrings d.extras)
  (to_install, to_uninstall)

/-! ## The sync command-line flow (scripts/sync.py cli)

The cli is embedded as a function from its parsed arguments and an
abstract world (filesystem facts, the parse results of each requirement
file, the installed snapshot, the interactive answer) to the trace of its
outward effects together with the process exit status. -/

inductive SyncEvent where
  | logError
  | logWarning
  | parseFile (f : String)
  | printPlan
  | askConfirm
  | uninstallCmd (keys : List String)
  | installCmd (keys : List String)
deriving DecidableEq

/-- An event that runs an install or uninstall subprocess command. -/
def SyncEvent.isCommand : SyncEvent → Bool
  | .uninstallCmd _ => true
  | .installCmd _ => true
  | _ => false

structure SyncArgs where
  ask : Bool
  dry_run : Bool
  force : Bool
  src_files : List String

structure SyncWorld where
  requirements_txt_exists : Bool
  file_reqs : String → List SyncReq
  installed : List InstalledDist
  answer : Bool

/-- Modelled from the spec: sync.sync applies or reports a plan.  An empty
plan is a success with no action; in ask-mode the plan is shown and
confirmation requested, a declined confirmation performs nothing and
returns 1; dry-run reports without acting and returns 1; otherwise the
uninstall batch runs before the install batch and 0 is returned. -/
def sync_sync (to_install : List SyncReq) (to_uninstall : List InstalledDist)
    (dry_run ask answer : Bool) : List SyncEvent × Nat :=
  if to_install = [] ∧ to_uninstall = [] then ([], 0)
  else
    let actions :=
      (if to_uninstall = [] then []
       else [SyncEvent.uninstallCmd (to_uninstall.map (fun d => d.key))])
      ++ (if to_install = [] then []
          else [SyncEvent.installCmd (to_install.map (fun r => r.key))])
    if ask then
      if answer then ([SyncEvent.printPlan, SyncEvent.askConfirm] ++ actions, 0)
      else ([SyncEvent.printPlan, SyncEvent.askConfirm], 1)
    else if dry_run then ([SyncEvent.printPlan], 1)
    else (actions, 0)

/-- The effective source files of scripts/sync.py cli after defaulting:
requirements.txt stands in when no files were given. -/
def effectiveSrcFiles (args : SyncArgs) : List String :=
  if args.src_files = [] then ["requirements.txt"] else args.src_files

/-- Embeds scripts/sync.py cli after the source-file checks: parse each
file, merge (exit 2 with an error on a PipToolsError), diff against the
installed snapshot and run sync.sync, exiting with its status. -/
def sync_cli_main (src_files : List String) (args : SyncArgs) (w : SyncWorld) :
    List SyncEvent × Nat :=
  let parses := src_files.map SyncEvent.parseFile
  match merge (src_files.flatMap w.file_reqs) args.force with
  | .error _ => (parses ++ [SyncEvent.logError], 2)
  | .ok merged =>
      let plan := diff merged w.installed
      let r := sync_sync plan.1 plan.2 args.dry_run args.ask w.answer
      (parses ++ r.1, r.2)

/-- Embeds scripts/sync.py cli: default the source files (exit 2 when none
are given and requirements.txt is absent), reject .in input files unless
force is given (warning instead), then hand over to the main flow. -/
def sync_cli (args : SyncArgs) (w : SyncWorld) : List SyncEvent × Nat :=
  if args.src_files = [] ∧ w.requirements_txt_exists = false then
    ([SyncEvent.logError], 2)
  else
    let src_files := effectiveSrcFiles args
    if src_files.any (fun f => pyEndsWith f ".in") then
      if args.force then
        let r := sync_cli_main src_files args w
        (SyncEvent.logWarning :: r.1, r.2)
      else ([SyncEvent.logError], 2)
    else sync_cli_main src_files args w

/-! ## The compile command-line flow (scripts/compile.py cli) -/

/-- The Python dict assignment existing_pins[key] = ireq: replace the
binding in place when the key is present, append otherwise. -/
def dictInsert : List (String × InstallRequirement) → String → InstallRequirement →
    List (String × InstallRequirement)
  | [], k, v => [(k, v)]
  | p :: rest, k, v =>
      if p.1 = k then (k, v) :: rest else p :: dictInsert rest k v

/-- One iteration of the loop of compile.py lines 289 to 294 on an already
pinned requirement: a key targeted for upgrade is collected into the
existing_pins_to_upgrade set, any other key is assigned in the
existing_pins dict.  A requirement on which key_from_ireq is undefined
cannot occur for a pinned requirement; the accumulator is kept. -/
def existingPinsStep (upgradeKeys : List String)
    (acc : List (String × InstallRequirement) × List String)
    (ireq : InstallRequirement) : List (String × InstallRequirement) × List String :=
  match key_from_ireq ireq with
  | some key =>
      if key ∈ upgradeKeys then
        (acc.1, if key ∈ acc.2 then acc.2 else acc.2 ++ [key])
      else
        (dictInsert acc.1 key ireq, acc.2)
  | none => acc

/-- Embeds compile.py lines 288 to 294: walk the pinned requirements
parsed from the existing output file; a pinned requirement whose key is an
upgrade target goes to existing_pins_to_upgrade, any other pinned
requirement is entered into the existing_pins dict under its key
(last assignment wins, as in a Python dict). -/
def computeExistingPins (upgradeKeys : List String)
    (ireqs : List InstallRequirement) :
    List (String × InstallRequirement) × List String :=
  (ireqs.filter is_pinned_requirement).foldl (existingPinsStep upgradeKeys) ([], [])

/-- Lookup in the dict model used by computeExistingPins. -/
def dictGet (m : List (String × InstallRequirement)) (k : String) :
    Option InstallRequirement :=
  (m.find? (fun p => decide (p.1 = k))).map (fun p => p.2)

inductive CompileEvent where
  | logErrorC
  | resolveDone
  | hashesDone
  | openOutput
  | writeOutput
deriving DecidableEq

/-- The outcomes fed to the output phase of compile.py: whether hashes were
requested, and the results of Resolver.resolve and resolve_hashes (the
resolver itself is outside these sources; only its outcome matters here). -/
structure CompileConfig where
  generate_hashes : Bool
  resolve_result : Except PipToolsError (List InstallRequirement)
  hash_result : Except PipToolsError (List (InstallRequirement × List String))

/-- Embeds compile.py lines 371 to 423: run resolution (and hash
resolution when requested) inside the try block, log and exit 2 on a
PipToolsError, and only then open the output file and write; the second
component is the exit status, none meaning a normal return. -/
def compile_output_phase (cfg : CompileConfig) : List CompileEvent × Option Nat :=
  match cfg.resolve_result with
  | .error _ => ([CompileEvent.logErrorC], some 2)
  | .ok _ =>
      if cfg.generate_hashes then
        match cfg.hash_result with
        | .error _ => ([CompileEvent.resolveDone, CompileEvent.logErrorC], some 2)
        | .ok _ =>
            ([CompileEvent.resolveDone, CompileEvent.hashesDone,
              CompileEvent.openOutput, CompileEvent.writeOutput], none)
      else
        ([CompileEvent.resolveDone, CompileEvent.openOutput,
          CompileEvent.writeOutput], none)

/-! ## Concrete fixtures used by witnesses and counterexamples -/

/-- A non-editable requirement pinned by the arbitrary-equality operator,
foo===1.0. -/
def ireqTripleEq : InstallRequirement :=
  { editable := false
    req := some { name := "foo"
                  specifiers := [{ operator := "===", version := "1.0" }]
                  extras := [] }
    link := none
    extras := []
    hash_options := [] }

/-- A URL requirement: no parsed requirement, only a link. -/
def ireqUrlOnly : InstallRequirement :=
  { editable := false
    req := none
    link := some "https://example.com/pkg.zip"
    extras := []
    hash_options := [] }

/-- A requirement carrying two hashes under one algorithm. -/
def ireqWithHashes : InstallRequirement :=
  { editable := false
    req := some { name := "six", specifiers := [{ operator := "==", version := "1.10.0" }], extras := [] }
    link := none
    extras := []
    hash_options := [("sha256", ["abc", "def"]), ("md5", ["0ff"])] }

/-- The constraint six greater than 1.10.0 of test_merge_error, with
version 1.10.0 written as the rational 110. -/
def sixGt : SyncReq := { key := "six", specs := [{ op := .gt, version := 110 }], marker := none }

/-- The constraint six less than 1.10.0 of test_merge_error. -/
def sixLt : SyncReq := { key := "six", specs := [{ op := .lt, version := 110 }], marker := none }

/-- six greater than 1.10.0, guarded by python_version at least 3. -/
def sixGtMarked : SyncReq :=
  { key := "six", specs := [{ op := .gt, version := 110 }]
    marker := some { var := "python_version", op := .ge, value := 3 } }

/-- six less than 1.10.0, guarded by python_version below 3. -/
def sixLtMarked : SyncReq :=
  { key := "six", specs := [{ op := .lt, version := 110 }]
    marker := some { var := "python_version", op := .lt, value := 3 } }

/-- Arguments of a plain pip-sync dry run on requirements.txt. -/
def c3Args : SyncArgs :=
  { ask := false, dry_run := true, force := false, src_files := ["requirements.txt"] }

/-- A world whose requirements.txt parses to the conflicting six pair. -/
def c3World : SyncWorld :=
  { requirements_txt_exists := true
    file_reqs := fun f => if f = "requirements.txt" then [sixGt, sixLt] else []
    installed := []
    answer := false }

/-- Arguments of pip-sync with no source files at all. -/
def c6Args : SyncArgs :=
  { ask := false, dry_run := false, force := false, src_files := [] }

/-- A world with no requirements.txt in the current directory. -/
def c6World : SyncWorld :=
  { requirements_txt_exists := false
    file_reqs := fun _ => []
    installed := []
    answer := false }

/-- Arguments of pip-sync in ask-mode. -/
def c7Args : SyncArgs :=
  { ask := true, dry_run := false, force := false, src_files := ["requirements.txt"] }

/-- A world with an empty requirements.txt, one installed distribution and
a declined confirmation. -/
def c7World : SyncWorld :=
  { requirements_txt_exists := true
    file_reqs := fun _ => []
    installed := [{ key := "small-fake-a", version := 1, extras := [] }]
    answer := false }

/-- Arguments naming a .in input file without force. -/
def c10Args : SyncArgs :=
  { ask := false, dry_run := false, force := false, src_files := ["requirements.in"] }

/-- The same arguments with force set. -/
def c10ArgsForced : SyncArgs :=
  { ask := false, dry_run := false, force := true, src_files := ["requirements.in"] }

/-- A world whose requirements.in parses to a single pinned six. -/
def c10World : SyncWorld :=
  { requirements_txt_exists := false
    file_reqs := fun f => if f = "requirements.in" then [{ key := "six", specs := [{ op := .eq, version := 110 }], marker := none }] else []
    installed := []
    answer := false }

/-- A compile configuration whose resolution fails. -/
def c5FailCfg : CompileConfig :=
  { generate_hashes := false
    resolve_result := .error (.noCandidateFound "six")
    hash_result := .ok [] }

/-- A compile configuration whose hash resolution fails. -/
def c5HashFailCfg : CompileConfig :=
  { generate_hashes := true
    resolve_result := .ok []
    hash_result := .error (.otherError "hash fetch failed") }

/-- A pinned six==1.10.0 as parsed from a prior output file. -/
def pinnedSix : InstallRequirement :=
  { editable := false
    req := some { name := "six", specifiers := [{ operator := "==", version := "1.10.0" }], extras := [] }
    link := none
    extras := []
    hash_options := [] }

/-- A pinned django==1.8 as parsed from a prior output file. -/
def pinnedDjango : InstallRequirement :=
  { editable := false
    req := some { name := "Django", specifiers := [{ operator := "==", version := "1.8" }], extras := [] }
    link := none
    extras := []
    hash_options := [] }

/-- A non-pinned requirement as parsed from a prior output file. -/
def loosePytz : InstallRequirement :=
  { editable := false
    req := some { name := "pytz", specifiers := [{ operator := ">=", version := "2016.1" }], extras := [] }
    link := none
    extras := []
    hash_options := [] }

/-! ## Character-level facts about the embedded string operations -/

theorem char_toNat_ofNat (n : Nat) (h : n.isValidChar) : (Char.ofNat n).toNat = n := by
  simp [Char.ofNat, h, Char.ofNatAux, Char.toNat, UInt32.toNat]

theorem char_toNat_toLower (c : Char) :
    (Char.toLower c).toNat =
      if c.toNat ≥ 65 ∧ c.toNat ≤ 90 then c.toNat + 32 else c.toNat := by
  unfold Char.toLower
  dsimp only
  split
  · exact char_toNat_ofNat _ (Or.inl (by omega))
  · rfl

theorem char_toNat_inj {c d : Char} (h : c.toNat = d.toNat) : c = d :=
  Char.ext (UInt32.ext h)

theorem toLower_ne_underscore {c : Char} (h : c ≠ '_') : Char.toLower c ≠ '_' := by
  intro hc
  have h95 := congrArg Char.toNat hc
  rw [char_toNat_toLower] at h95
  have h2 : ('_' : Char).toNat = 95 := by decide
  rw [h2] at h95
  split at h95
  · omega
  · exact h (char_toNat_inj (by omega))

theorem toLower_toLower (c : Char) : Char.toLower (Char.toLower c) = Char.toLower c := by
  apply char_toNat_inj
  rw [char_toNat_toLower, char_toNat_toLower]
  split_ifs <;> omega

/-- Char.toLower never produces an underscore from a non-underscore, so
lowercasing commutes with the underscore-to-dash map. -/
theorem toLower_underscoreToDash (c : Char) :
    Char.toLower (underscoreToDash c) = underscoreToDash (Char.toLower c) := by
  by_cases h : c = '_'
  · subst h; decide
  · simp [underscoreToDash, h, toLower_ne_underscore h]

theorem pyLower_pyReplaceUnderscore (s : String) :
    pyLower (pyReplaceUnderscore s) = pyReplaceUnderscore (pyLower s) := by
  simp only [pyLower, pyReplaceUnderscore, List.map_map]
  exact congrArg String.mk (List.map_congr_left fun c _ => toLower_underscoreToDash c)

theorem pyLower_pyLower (s : String) : pyLower (pyLower s) = pyLower s := by
  simp only [pyLower, List.map_map]
  exact congrArg String.mk (List.map_congr_left fun c _ => toLower_toLower c)

/-! ## Soundness of the specifier satisfiability procedure -/

theorem exists_rat_lt_lt (x y : ℚ) : ∃ v : ℚ, v < x ∧ v < y :=
  ⟨min x y - 1, by constructor <;> linarith [min_le_left x y, min_le_right x y]⟩

theorem exists_rat_lt_le (x y : ℚ) : ∃ v : ℚ, v < x ∧ v ≤ y :=
  ⟨min x y - 1, by constructor <;> linarith [min_le_left x y, min_le_right x y]⟩

theorem exists_rat_le_lt (x y : ℚ) : ∃ v : ℚ, v ≤ x ∧ v < y :=
  ⟨min x y - 1, by constructor <;> linarith [min_le_left x y, min_le_right x y]⟩

theorem exists_rat_le_le (x y : ℚ) : ∃ v : ℚ, v ≤ x ∧ v ≤ y :=
  ⟨min x y - 1, by constructor <;> linarith [min_le_left x y, min_le_right x y]⟩

theorem exists_rat_gt_gt (x y : ℚ) : ∃ v : ℚ, x < v ∧ y < v :=
  ⟨max x y + 1, by constructor <;> linarith [le_max_left x y, le_max_right x y]⟩

theorem exists_rat_gt_ge (x y : ℚ) : ∃ v : ℚ, x < v ∧ y ≤ v :=
  ⟨max x y + 1, by constructor <;> linarith [le_max_left x y, le_max_right x y]⟩

theorem exists_rat_ge_gt (x y : ℚ) : ∃ v : ℚ, x ≤ v ∧ y < v :=
  ⟨max x y + 1, by constructor <;> linarith [le_max_left x y, le_max_right x y]⟩

theorem exists_rat_ge_ge (x y : ℚ) : ∃ v : ℚ, x ≤ v ∧ y ≤ v :=
  ⟨max x y + 1, by constructor <;> linarith [le_max_left x y, le_max_right x y]⟩

/-- Every single specifier is satisfiable on its own. -/
theorem vsHolds_sat (s : VSpec) : ∃ v, vsHolds v s := by
  obtain ⟨op, x⟩ := s
  cases op
  · exact ⟨x - 1, by simp only [vsHolds]; linarith⟩
  · exact ⟨x, by simp only [vsHolds]; linarith⟩
  · exact ⟨x, by simp only [vsHolds]⟩
  · exact ⟨x, by simp only [vsHolds]; linarith⟩
  · exact ⟨x + 1, by simp only [vsHolds]; linarith⟩

/-- The pairSat table decides exactly joint satisfiability over the dense
order of versions. -/
theorem pairSat_iff (a b : VSpec) :
    pairSat a b = true ↔ ∃ v, vsHolds v a ∧ vsHolds v b := by
  obtain ⟨oa, x⟩ := a
  obtain ⟨ob, y⟩ := b
  cases oa <;> cases ob <;>
    simp only [pairSat, vsHolds, decide_eq_true_eq]
  case lt.lt => simpa using exists_rat_lt_lt x y
  case lt.le => simpa using exists_rat_lt_le x y
  case lt.eq => simp
  case lt.ge =>
    constructor
    · intro h; exact ⟨y, by linarith, le_refl y⟩
    · rintro ⟨v, h1, h2⟩; linarith
  case lt.gt =>
    constructor
    · intro h; exact ⟨(x + y) / 2, by linarith, by linarith⟩
    · rintro ⟨v, h1, h2⟩; linarith
  case le.lt => simpa using exists_rat_le_lt x y
  case le.le => simpa using exists_rat_le_le x y
  case le.eq => simp
  case le.ge =>
    constructor
    · intro h; exact ⟨x, le_refl x, h⟩
    · rintro ⟨v, h1, h2⟩; linarith
  case le.gt =>
    constructor
    · intro h; exact ⟨x, le_refl x, h⟩
    · rintro ⟨v, h1, h2⟩; linarith
  case eq.lt => simp
  case eq.le => simp
  case eq.eq => simp
  case eq.ge => simp
  case eq.gt => simp
  case ge.lt =>
    constructor
    · intro h; exact ⟨x, le_refl x, h⟩
    · rintro ⟨v, h1, h2⟩; linarith
  case ge.le =>
    constructor
    · intro h; exact ⟨x, le_refl x, h⟩
    · rintro ⟨v, h1, h2⟩; linarith
  case ge.eq => simp
  case ge.ge => simpa using exists_rat_ge_ge x y
  case ge.gt => simpa using exists_rat_ge_gt x y
  case gt.lt =>
    constructor
    · intro h; exact ⟨(x + y) / 2, by linarith, by linarith⟩
    · rintro ⟨v, h1, h2⟩; linarith
  case gt.le =>
    constructor
    · intro h; exact ⟨y, by linarith, le_refl y⟩
    · rintro ⟨v, h1, h2⟩; linarith
  case gt.eq => simp
  case gt.ge => simpa using exists_rat_gt_ge x y
  case gt.gt => simpa using exists_rat_gt_gt x y

/-- The markersExclusive test decides exactly "cannot both be true on the
same platform". -/
theorem markersExclusive_iff (m1 m2 : Option MarkerAtom) :
    markersExclusive m1 m2 = true ↔
      ∀ env : String → ℚ, ¬(mHolds env m1 ∧ mHolds env m2) := by
  cases m1 with
  | none =>
      cases m2 with
      | none =>
          simp only [markersExclusive, mHolds]
          constructor
          · intro h; exact absurd h (by simp)
          · intro h; exact ((h fun _ => 0) ⟨trivial, trivial⟩).elim
      | some b =>
          simp only [markersExclusive, mHolds]
          constructor
          · intro h; exact absurd h (by simp)
          · intro h
            obtain ⟨v, hv⟩ := vsHolds_sat ⟨b.op, b.value⟩
            exact ((h fun _ => v) ⟨trivial, hv⟩).elim
  | some a =>
      cases m2 with
      | none =>
          simp only [markersExclusive, mHolds]
          constructor
          · intro h; exact absurd h (by simp)
          · intro h
            obtain ⟨v, hv⟩ := vsHolds_sat ⟨a.op, a.value⟩
            exact ((h fun _ => v) ⟨hv, trivial⟩).elim
      | some b =>
          simp only [markersExclusive, mHolds, Bool.and_eq_true, decide_eq_true_eq,
            Bool.not_eq_true']
          constructor
          · rintro ⟨hvar, hsat⟩ env ⟨h1, h2⟩
            have hex : ∃ v, vsHolds v ⟨a.op, a.value⟩ ∧ vsHolds v ⟨b.op, b.value⟩ :=
              ⟨env a.var, h1, by rw [hvar]; exact h2⟩
            rw [← pairSat_iff] at hex
            simp [hsat] at hex
          · intro h
            by_cases hvar : a.var = b.var
            · refine ⟨hvar, ?_⟩
              cases hb : pairSat ⟨a.op, a.value⟩ ⟨b.op, b.value⟩
              · rfl
              · obtain ⟨v, hv1, hv2⟩ := (pairSat_iff _ _).mp hb
                exact ((h fun _ => v) ⟨hv1, hv2⟩).elim
            · exfalso
              obtain ⟨va, hva⟩ := vsHolds_sat ⟨a.op, a.value⟩
              obtain ⟨vb, hvb⟩ := vsHolds_sat ⟨b.op, b.value⟩
              refine (h (fun s => if s = a.var then va else vb)) ⟨?_, ?_⟩
              · simpa using hva
              · have hne : b.var ≠ a.var := fun hh => hvar hh.symm
                simpa [hne] using hvb

/-! ## Claim C1: what is_pinned_requirement accepts -/

/-- Claim C1 (amended): is_pinned_requirement returns true exactly on the
non-editable requirements with a parsed requirement carrying exactly one
version specifier whose operator is a double or triple equality and whose
version does not end in the .* wildcard.  The claim as frozen names only
the double-equality operator; the source also accepts arbitrary equality,
see the counterexample. -/
theorem C1_is_pinned_requirement_iff (ireq : InstallRequirement) :
    is_pinned_requirement ireq = true ↔
      ireq.editable = false ∧
        ∃ r spec, ireq.req = some r ∧ r.specifiers = [spec] ∧
          (spec.operator = "==" ∨ spec.operator = "===") ∧
          pyEndsWith spec.version ".*" = false := by
  obtain ⟨ed, req, lnk, ext, ho, con⟩ := ireq
  cases ed
  · cases req with
    | none => simp [is_pinned_requirement, specifierOf]
    | some r =>
        obtain ⟨nm, specs, rext⟩ := r
        match specs with
        | [] => simp [is_pinned_requirement, specifierOf]
        | [spec] => simp [is_pinned_requirement, specifierOf]
        | s1 :: s2 :: tl => simp [is_pinned_requirement, specifierOf]
  · simp [is_pinned_requirement]

/-- Claim C1 (counterexample): foo===1.0 is not editable and carries the
single specifier ===1.0 with no wildcard; its operator is not the double
equality, yet is_pinned_requirement accepts it, refuting the frozen
equivalence. -/
theorem C1_counterexample :
    is_pinned_requirement ireqTripleEq = true ∧
      specifierOf ireqTripleEq = [{ operator := "===", version := "1.0" }] ∧
      ({ operator := "===", version := "1.0" } : Specifier).operator ≠ "==" := by
  refine ⟨by decide, rfl, by decide⟩

/-! ## Claim C2: key normalization -/

/-- Claim C2: key_from_req on a parsed requirement, and key_from_ireq when
the parsed requirement is present, return the name lowercased with every
underscore replaced by a dash; on a pkg_resources Distribution, whose key
field is its lowercased project name (external pkg_resources contract,
stated as the hypothesis hd), the same normal form of the project name
results; an InstallRequirement without a parsed requirement but with a
link maps to the exact URL string of the link. -/
theorem C2_key_normalization (r : Requirement) (d : Distribution)
    (ireq jreq : InstallRequirement) (rr : Requirement) (l : String)
    (hd : d.key = pyLower d.project_name)
    (hireq : ireq.req = some rr)
    (hj1 : jreq.req = none) (hj2 : jreq.link = some l) :
    key_from_req (.req r) = pyReplaceUnderscore (pyLower r.name) ∧
    key_from_req (.dist d) = pyReplaceUnderscore (pyLower d.project_name) ∧
    key_from_ireq ireq = some (pyReplaceUnderscore (pyLower rr.name)) ∧
    key_from_ireq jreq = some l := by
  refine ⟨pyLower_pyReplaceUnderscore r.name, ?_, ?_, ?_⟩
  · show pyLower (pyReplaceUnderscore d.key) = _
    rw [hd, pyLower_pyReplaceUnderscore, pyLower_pyLower]
  · rw [key_from_ireq, hireq]
    cases hl : jreq.link <;>
      exact congrArg some (pyLower_pyReplaceUnderscore rr.name)
  · rw [key_from_ireq, hj1, hj2]

/-- Claim C2 (witness): the normalization at concrete inputs, including a
mixed-case name with an underscore, a Distribution, a requirement-backed
InstallRequirement and a URL-only InstallRequirement. -/
theorem C2_witness :
    key_from_req (.req { name := "Foo_Bar", specifiers := [], extras := [] }) = "foo-bar" ∧
    key_from_req (.dist { project_name := "Foo_Bar", key := "foo_bar" }) = "foo-bar" ∧
    key_from_ireq pinnedDjango = some "django" ∧
    key_from_ireq ireqUrlOnly = some "https://example.com/pkg.zip" := by
  have h := C2_key_normalization
    { name := "Foo_Bar", specifiers := [], extras := [] }
    { project_name := "Foo_Bar", key := "foo_bar" }
    pinnedDjango ireqUrlOnly
    { name := "Django", specifiers := [{ operator := "==", version := "1.8" }], extras := [] }
    "https://example.com/pkg.zip"
    (by decide) rfl rfl rfl
  exact ⟨h.1.trans (by decide), h.2.1.trans (by decide),
    h.2.2.1.trans (by decide), h.2.2.2⟩

/-! ## Claim C8: hash strings -/

theorem foldl_append_singleton (f : String → String) (l init : List String) :
    l.foldl (fun acc h => acc ++ [f h]) init = init ++ l.map f := by
  induction l generalizing init with
  | nil => simp
  | cons h t ih => simp [ih, List.append_assoc]

theorem get_hashes_foldl (l : List (String × List String)) (init : List String) :
    l.foldl (fun result p => p.2.foldl (fun acc h => acc ++ [p.1 ++ ":" ++ h]) result) init
      = init ++ l.flatMap (fun p => p.2.map (fun h => p.1 ++ ":" ++ h)) := by
  induction l generalizing init with
  | nil => simp
  | cons p t ih =>
      simp only [List.foldl_cons, List.flatMap_cons]
      rw [ih, foldl_append_singleton, List.append_assoc]

/-- Claim C8: get_hashes_from_ireq returns exactly one algorithm:hexdigest
string for each (algorithm, hexdigest) pair of the hash options, in order
and with multiplicity, and the empty list when the requirement carries no
hashes. -/
theorem C8_get_hashes (ireq : InstallRequirement) :
    get_hashes_from_ireq ireq =
        (hashPairs ireq).map (fun q => q.1 ++ ":" ++ q.2) ∧
      (ireq.hash_options = [] → get_hashes_from_ireq ireq = []) := by
  constructor
  · rw [get_hashes_from_ireq, get_hashes_foldl, List.nil_append, hashPairs,
      List.map_flatMap]
    simp [List.map_map, Function.comp_def]
  · intro h
    rw [get_hashes_from_ireq, h]
    rfl

/-- Claim C8 (witness): at a requirement with two sha256 digests and one
md5 digest, and at a requirement with no hashes. -/
theorem C8_witness :
    get_hashes_from_ireq ireqWithHashes = ["sha256:abc", "sha256:def", "md5:0ff"] ∧
    get_hashes_from_ireq ireqUrlOnly = [] := by
  exact ⟨(C8_get_hashes ireqWithHashes).1.trans (by decide),
    (C8_get_hashes ireqUrlOnly).2 rfl⟩

/-! ## Claim C9: the make_install_requirement round trip -/

/-- Claim C9 (counterexample): with the wildcard version 1.* the line
foo==1.* built by make_install_requirement parses to a requirement that
is_pinned_requirement rejects, refuting the claim that the produced
requirement is always accepted. -/
theorem C9_counterexample :
    is_pinned_requirement (make_install_requirement "foo" "1.*" [] false) = false := by
  decide

/-- Claim C9 (amended): provided the version does not end in the .*
wildcard, make_install_requirement produces a requirement accepted by
is_pinned_requirement, and as_tuple on it returns exactly the normalized
key of the name, the version, and the extras sorted ascending; as_tuple
answers the TypeError on every requirement that is not pinned. -/
theorem C9_round_trip :
    (∀ name version : String, ∀ extras : List String,
        pyEndsWith version ".*" = false →
          is_pinned_requirement (make_install_requirement name version extras false) = true ∧
            as_tuple (make_install_requirement name version extras false) =
              .ok (pyReplaceUnderscore (pyLower name), version, sortedStrings extras)) ∧
      (∀ ireq, is_pinned_requirement ireq = false →
        as_tuple ireq = .error "Expected a pinned InstallRequirement") := by
  constructor
  · intro name version extras hver
    have hsorted : sortedStrings (sortedStrings extras) = sortedStrings extras := by
      apply List.Sorted.insertionSort_eq
      exact List.sorted_insertionSort (fun a b => a ≤ b) extras
    have hpin :
        is_pinned_requirement (make_install_requirement name version extras false) = true := by
      simp [make_install_requirement, install_req_from_pin_line,
        is_pinned_requirement, specifierOf, hver]
    refine ⟨hpin, ?_⟩
    rw [as_tuple, if_pos hpin]
    simp [make_install_requirement, install_req_from_pin_line, key_from_ireq,
      key_from_req, specifierOf, hsorted, pyLower_pyReplaceUnderscore]
  · intro ireq hpin
    rw [as_tuple, if_neg (by simp [hpin])]

/-- Claim C9 (witness): the round trip at a mixed-case underscored name
with unsorted extras, and the TypeError branch at a non-pinned
requirement. -/
theorem C9_witness :
    is_pinned_requirement (make_install_requirement "foo_Bar" "1.0" ["b", "a"] false) = true ∧
    as_tuple (make_install_requirement "foo_Bar" "1.0" ["b", "a"] false) =
      .ok ("foo-bar", "1.0", ["a", "b"]) ∧
    as_tuple loosePytz = .error "Expected a pinned InstallRequirement" := by
  have h1 := C9_round_trip.1 "foo_Bar" "1.0" ["b", "a"] (by decide)
  have e1 : pyReplaceUnderscore (pyLower "foo_Bar") = "foo-bar" := by decide
  have e2 : sortedStrings ["b", "a"] = ["a", "b"] := by
    simp [sortedStrings, List.insertionSort, List.orderedInsert]
    decide
  rw [e1, e2] at h1
  exact ⟨h1.1, h1.2, C9_round_trip.2 loosePytz (by decide)⟩

/-! ## Claim C3: conflict detection in the sync merge -/

theorem merge_pair (ic : Bool) (r1 r2 : SyncReq) :
    merge [r1, r2] ic = insertReq ic r2 [r1] := by
  show (insertReq ic r1 [] >>= fun acc =>
    (insertReq ic r2 acc >>= fun acc2 => pure acc2)) = _
  show (Except.ok [r1] >>= fun acc =>
    (insertReq ic r2 acc >>= fun acc2 => pure acc2)) = _
  cases h : insertReq ic r2 [r1] <;> simp [h, Bind.bind, Except.bind, Pure.pure, Except.pure]

/-- Claim C3: two constraints for the same package whose specifier sets
are jointly unsatisfiable and which carry no markers make merge fail with
IncompatibleRequirements, and make the sync cli exit with status 2 after
logging the error; with ignore_conflicts (the force flag) the merge
succeeds; when instead the two constraints are isolated by mutually
exclusive markers, the merge succeeds and keeps both entries. -/
theorem C3_merge_conflicts (r1 r2 : SyncReq) (f : String)
    (args : SyncArgs) (w : SyncWorld)
    (hkey : r1.key = r2.key)
    (hspec : specsCompatible r1.specs r2.specs = false) :
    (r1.marker = none → r2.marker = none →
        merge [r1, r2] false = .error (.incompatibleRequirements r1 r2)) ∧
    (r1.marker = none → r2.marker = none →
        args.force = false → args.src_files = [f] →
        pyEndsWith f ".in" = false → w.file_reqs f = [r1, r2] →
        (sync_cli args w).2 = 2 ∧ SyncEvent.logError ∈ (sync_cli args w).1) ∧
    ((merge [r1, r2] true).isOk = true) ∧
    (markersExclusive r1.marker r2.marker = true →
        merge [r1, r2] false = .ok [r1, r2]) := by
  have herr : ∀ hm1 : r1.marker = none, ∀ hm2 : r2.marker = none,
      merge [r1, r2] false = .error (.incompatibleRequirements r1 r2) := by
    intro hm1 hm2
    rw [merge_pair, insertReq,
      if_pos ⟨hkey, by rw [hm1, hm2]; rfl⟩, if_neg (by simp [hspec]), if_neg (by simp)]
  refine ⟨herr, ?_, ?_, ?_⟩
  · intro hm1 hm2 hforce hsrc hin hreqs
    have hsf : effectiveSrcFiles args = [f] := by
      rw [effectiveSrcFiles, hsrc, if_neg (by simp)]
    have hcli : sync_cli args w =
        ([SyncEvent.parseFile f] ++ [SyncEvent.logError], 2) := by
      rw [sync_cli, if_neg (by rw [hsrc]; simp)]
      simp only [hsf, List.any_cons, List.any_nil, hin, Bool.or_false, if_false]
      rw [sync_cli_main]
      have hflat : List.flatMap [f] w.file_reqs = [r1, r2] := by
        simp [List.flatMap, hreqs]
      rw [hflat, hforce, herr hm1 hm2]
      simp
    rw [hcli]
    exact ⟨rfl, by simp⟩
  · rw [merge_pair, insertReq]
    by_cases hcond : r1.key = r2.key ∧ markersExclusive r1.marker r2.marker = false
    · rw [if_pos hcond, if_neg (by simp [hspec]), if_pos rfl]
      rfl
    · rw [if_neg hcond]
      rfl
  · intro hmx
    rw [merge_pair, insertReq, if_neg (by simp [hmx])]
    rfl

/-- Claim C3 (witness): the six pair of test_merge_error, with and without
force, and the same pair isolated by python_version markers. -/
theorem C3_witness :
    merge [sixGt, sixLt] false = .error (.incompatibleRequirements sixGt sixLt) ∧
    (sync_cli c3Args c3World).2 = 2 ∧
    (merge [sixGt, sixLt] true).isOk = true ∧
    merge [sixGtMarked, sixLtMarked] false = .ok [sixGtMarked, sixLtMarked] := by
  have h := C3_merge_conflicts sixGt sixLt "requirements.txt" c3Args c3World rfl (by decide)
  have hm := C3_merge_conflicts sixGtMarked sixLtMarked "requirements.txt" c3Args c3World
    rfl (by decide)
  exact ⟨h.1 rfl rfl,
    (h.2.1 rfl rfl rfl rfl (by decide) rfl).1,
    h.2.2.1,
    hm.2.2.2 (by decide)⟩

/-! ## Claim C6: no input files and no requirements.txt -/

/-- Claim C6: invoked with no source-file arguments and no
requirements.txt in the current directory, the sync cli prints an error
and exits with status 2. -/
theorem C6_no_requirements (args : SyncArgs) (w : SyncWorld)
    (h1 : args.src_files = []) (h2 : w.requirements_txt_exists = false) :
    sync_cli args w = ([SyncEvent.logError], 2) := by
  rw [sync_cli, if_pos ⟨h1, h2⟩]

/-- Claim C6 (witness): the concrete empty invocation. -/
theorem C6_witness : sync_cli c6Args c6World = ([SyncEvent.logError], 2) :=
  C6_no_requirements c6Args c6World rfl rfl

/-! ## Claim C7: declined confirmation in ask-mode -/

/-- Claim C7: when the sync cli runs in ask-mode on a plan that is not
empty and the confirmation is declined, no install or uninstall command is
executed and the exit status is 1. -/
theorem C7_ask_declined (args : SyncArgs) (w : SyncWorld) (m : List SyncReq)
    (hask : args.ask = true) (hans : w.answer = false)
    (hne : ¬(args.src_files = [] ∧ w.requirements_txt_exists = false))
    (hin : (effectiveSrcFiles args).any (fun f => pyEndsWith f ".in") = false)
    (hmerge : merge ((effectiveSrcFiles args).flatMap w.file_reqs) args.force = .ok m)
    (hplan : ¬((diff m w.installed).1 = [] ∧ (diff m w.installed).2 = [])) :
    (sync_cli args w).2 = 1 ∧
      ((sync_cli args w).1.all fun e => !e.isCommand) = true := by
  have hss : sync_sync (diff m w.installed).1 (diff m w.installed).2
      args.dry_run args.ask w.answer =
        ([SyncEvent.printPlan, SyncEvent.askConfirm], 1) := by
    rw [sync_sync, if_neg hplan, hask, hans]
    simp
  have hcli : sync_cli args w =
      ((effectiveSrcFiles args).map SyncEvent.parseFile ++
        [SyncEvent.printPlan, SyncEvent.askConfirm], 1) := by
    rw [sync_cli, if_neg hne]
    simp only [hin, Bool.false_eq_true, if_false]
    rw [sync_cli_main, hmerge]
    simp [hss]
  rw [hcli]
  refine ⟨rfl, ?_⟩
  simp [List.all_append, List.all_map, SyncEvent.isCommand, Function.comp_def]

/-- Claim C7 (witness): an ask-mode run over an empty requirements.txt
with one installed distribution and a declined answer. -/
theorem C7_witness :
    (sync_cli c7Args c7World).2 = 1 ∧
      ((sync_cli c7Args c7World).1.all fun e => !e.isCommand) = true := by
  refine C7_ask_declined c7Args c7World [] rfl rfl ?_ (by decide) (by rfl) ?_
  · rintro ⟨h1, -⟩
    exact absurd h1 (by decide)
  · rintro ⟨-, h2⟩
    exact absurd h2 (by decide)

/-! ## Claim C10: .in input files -/

/-- Claim C10: when some source file name ends in .in, the sync cli
without force prints an error and exits with status 2 without parsing or
acting on any requirements (the trace is exactly the error message); with
force it prints a warning and proceeds with the unchanged main flow. -/
theorem C10_dot_in_inputs (args : SyncArgs) (w : SyncWorld) (f : String)
    (hf : f ∈ args.src_files) (hin : pyEndsWith f ".in" = true) :
    (args.force = false → sync_cli args w = ([SyncEvent.logError], 2)) ∧
    (args.force = true →
        sync_cli args w =
          (SyncEvent.logWarning :: (sync_cli_main (effectiveSrcFiles args) args w).1,
            (sync_cli_main (effectiveSrcFiles args) args w).2)) := by
  have hne : ¬(args.src_files = [] ∧ w.requirements_txt_exists = false) := by
    rintro ⟨h1, -⟩
    rw [h1] at hf
    exact absurd hf (List.not_mem_nil f)
  have hsf : effectiveSrcFiles args = args.src_files := by
    rw [effectiveSrcFiles, if_neg]
    intro h1
    rw [h1] at hf
    exact absurd hf (List.not_mem_nil f)
  have hany : (effectiveSrcFiles args).any (fun g => pyEndsWith g ".in") = true := by
    rw [hsf, List.any_eq_true]
    exact ⟨f, hf, hin⟩
  constructor
  · intro hforce
    rw [sync_cli, if_neg hne]
    simp only [hany, if_true, hforce, Bool.false_eq_true, if_false]
  · intro hforce
    rw [sync_cli, if_neg hne]
    simp only [hany, if_true, hforce, if_true]

/-- Claim C10 (witness): pip-sync requirements.in with and without
force. -/
theorem C10_witness :
    sync_cli c10Args c10World = ([SyncEvent.logError], 2) ∧
    sync_cli c10ArgsForced c10World =
      (SyncEvent.logWarning ::
        (sync_cli_main (effectiveSrcFiles c10ArgsForced) c10ArgsForced c10World).1,
        (sync_cli_main (effectiveSrcFiles c10ArgsForced) c10ArgsForced c10World).2) := by
  have h1 := C10_dot_in_inputs c10Args c10World "requirements.in" (by decide) (by decide)
  have h2 := C10_dot_in_inputs c10ArgsForced c10World "requirements.in" (by decide) (by decide)
  exact ⟨h1.1 rfl, h2.2 rfl⟩

/-! ## Claim C4: reuse of existing pins in the compile cli -/

theorem dictGet_cons (q : String × InstallRequirement)
    (rest : List (String × InstallRequirement)) (k2 : String) :
    dictGet (q :: rest) k2 = if q.1 = k2 then some q.2 else dictGet rest k2 := by
  by_cases h : q.1 = k2 <;> simp [dictGet, List.find?_cons, h]

theorem dictGet_dictInsert (m : List (String × InstallRequirement)) (k : String)
    (v : InstallRequirement) (k2 : String) :
    dictGet (dictInsert m k v) k2 = if k2 = k then some v else dictGet m k2 := by
  induction m with
  | nil =>
      rw [show dictInsert [] k v = [(k, v)] from rfl, dictGet_cons]
      by_cases h : k2 = k
      · simp [h]
      · have h2 : ¬k = k2 := fun hh => h hh.symm
        simp [h, h2, dictGet]
  | cons p rest ih =>
      rw [show dictInsert (p :: rest) k v =
        if p.1 = k then (k, v) :: rest else p :: dictInsert rest k v from rfl]
      by_cases hp : p.1 = k
      · rw [if_pos hp, dictGet_cons, dictGet_cons]
        by_cases h : k2 = k
        · simp [h]
        · have h2 : ¬k = k2 := fun hh => h hh.symm
          have h3 : ¬p.1 = k2 := fun hh => h2 (hp.symm.trans hh)
          simp [h, h2, h3]
      · rw [if_neg hp, dictGet_cons, dictGet_cons, ih]
        by_cases h : k2 = k
        · have h3 : ¬p.1 = k2 := fun hh => hp (hh.trans h)
          simp [h, h3]
          exact fun hh => absurd hh hp
        · by_cases h4 : p.1 = k2
          · simp [h, h4]
          · simp [h, h4]

theorem existingPinsStep_dict (U : List String) (k : String)
    (hU : k ∉ U)
    (acc : List (String × InstallRequirement) × List String)
    (i : InstallRequirement) :
    dictGet (existingPinsStep U acc i).1 k =
      if key_from_ireq i = some k then some i else dictGet acc.1 k := by
  cases hk : key_from_ireq i with
  | none => simp [existingPinsStep, hk]
  | some key =>
      by_cases hkey : key ∈ U
      · have hne : ¬(key = k) := fun hh => hU (hh ▸ hkey)
        simp [existingPinsStep, hk, hkey, hne]
      · rw [existingPinsStep]
        simp only [hk, hkey, if_false]
        rw [dictGet_dictInsert]
        by_cases h2 : k = key
        · simp [h2]
        · have h3 : ¬(key = k) := fun hh => h2 hh.symm
          simp [h2, h3]

theorem fold_pins_upgrade (U : List String) (k : String) (hU : k ∈ U)
    (fl : List InstallRequirement) :
    ∀ acc : List (String × InstallRequirement) × List String,
      dictGet (fl.foldl (existingPinsStep U) acc).1 k = dictGet acc.1 k := by
  induction fl with
  | nil => intro acc; rfl
  | cons i t ih =>
      intro acc
      rw [List.foldl_cons, ih]
      cases hk : key_from_ireq i with
      | none => simp [existingPinsStep, hk]
      | some key =>
          by_cases hkey : key ∈ U
          · simp [existingPinsStep, hk, hkey]
          · have hne : ¬(k = key) := fun hh => hkey (hh ▸ hU)
            rw [existingPinsStep]
            simp only [hk, hkey, if_false]
            rw [dictGet_dictInsert, if_neg hne]

theorem fold_pins_main (U : List String) (k : String) (hU : k ∉ U)
    (fl : List InstallRequirement) :
    ∀ acc : List (String × InstallRequirement) × List String,
      dictGet (fl.foldl (existingPinsStep U) acc).1 k =
        (fl.reverse.find? fun i => decide (key_from_ireq i = some k)).or
          (dictGet acc.1 k) := by
  induction fl with
  | nil => intro acc; rfl
  | cons i t ih =>
      intro acc
      rw [List.foldl_cons, ih, existingPinsStep_dict U k hU, List.reverse_cons,
        List.find?_append]
      cases hfind : t.reverse.find? fun i => decide (key_from_ireq i = some k) with
      | some j => simp [Option.or]
      | none =>
          simp only [Option.or]
          by_cases hp : key_from_ireq i = some k
          · simp [List.find?, hp]
          · simp [List.find?, hp]

/-- Claim C4: the existing_pins mapping built by the compile cli from the
prior output contains key k exactly when k is not an upgrade target and
some pinned requirement of the prior output has key k; every value stored
is such a pinned requirement of the prior output with that key.  Pinned
upgrade targets and non-pinned entries never enter the mapping. -/
theorem C4_existing_pins (U : List String) (l : List InstallRequirement) (k : String) :
    ((dictGet (computeExistingPins U l).1 k).isSome = true ↔
        k ∉ U ∧
          ∃ i ∈ l, is_pinned_requirement i = true ∧ key_from_ireq i = some k) ∧
      (∀ v, dictGet (computeExistingPins U l).1 k = some v →
        is_pinned_requirement v = true ∧ key_from_ireq v = some k ∧ v ∈ l) := by
  by_cases hU : k ∈ U
  · rw [computeExistingPins, fold_pins_upgrade U k hU]
    constructor
    · simp [dictGet, hU]
    · intro v hv
      simp [dictGet] at hv
  · rw [computeExistingPins, fold_pins_main U k hU]
    have hnone :
        dictGet (([], []) : List (String × InstallRequirement) × List String).1 k =
          none := rfl
    rw [hnone, Option.or_none]
    constructor
    · rw [List.find?_isSome]
      simp only [List.mem_reverse, List.mem_filter, decide_eq_true_eq]
      constructor
      · rintro ⟨x, ⟨hx, hp2⟩, hk2⟩
        exact ⟨hU, x, hx, hp2, hk2⟩
      · rintro ⟨-, i, hi, hp2, hk2⟩
        exact ⟨i, ⟨hi, hp2⟩, hk2⟩
    · intro v hv
      have hp := List.find?_some hv
      have hm := List.mem_of_find?_eq_some hv
      rw [List.mem_reverse, List.mem_filter] at hm
      exact ⟨hm.2, by simpa using hp, hm.1⟩

/-- Claim C4 (witness): prior output six==1.10.0, pytz>=2016.1 and
Django==1.8 with django as the upgrade target: six is reused, django and
pytz are not. -/
theorem C4_witness :
    (dictGet (computeExistingPins ["django"] [pinnedSix, loosePytz, pinnedDjango]).1 "six").isSome = true ∧
    (dictGet (computeExistingPins ["django"] [pinnedSix, loosePytz, pinnedDjango]).1 "django").isSome = false ∧
    (dictGet (computeExistingPins ["django"] [pinnedSix, loosePytz, pinnedDjango]).1 "pytz").isSome = false := by
  have hsix := (C4_existing_pins ["django"] [pinnedSix, loosePytz, pinnedDjango] "six").1
  have hdj := (C4_existing_pins ["django"] [pinnedSix, loosePytz, pinnedDjango] "django").1
  have hpytz := (C4_existing_pins ["django"] [pinnedSix, loosePytz, pinnedDjango] "pytz").1
  refine ⟨?_, ?_, ?_⟩
  · exact hsix.mpr ⟨by decide, pinnedSix, by simp, by decide, by decide⟩
  · cases hb : (dictGet (computeExistingPins ["django"] [pinnedSix, loosePytz, pinnedDjango]).1 "django").isSome
    · rfl
    · exact absurd (hdj.mp hb).1 (by decide)
  · cases hb : (dictGet (computeExistingPins ["django"] [pinnedSix, loosePytz, pinnedDjango]).1 "pytz").isSome
    · rfl
    · obtain ⟨-, i, hi, hpin, hkey⟩ := hpytz.mp hb
      have : i = pinnedSix ∨ i = loosePytz ∨ i = pinnedDjango := by simpa using hi
      rcases this with rfl | rfl | rfl
      · exact absurd hkey (by decide)
      · exact absurd hpin (by decide)
      · exact absurd hkey (by decide)

/-! ## Claim C5: no output file on resolution failure -/

/-- Claim C5: when resolution or hash resolution fails with a
PipToolsError, the compile cli exits with status 2 and its trace never
opens or writes the output file; conversely the output file is opened only
on a run whose resolution succeeded, and then the cli returns normally. -/
theorem C5_no_output_on_failure (cfg : CompileConfig) :
    (∀ e, cfg.resolve_result = .error e →
        (compile_output_phase cfg).2 = some 2 ∧
          CompileEvent.openOutput ∉ (compile_output_phase cfg).1 ∧
          CompileEvent.writeOutput ∉ (compile_output_phase cfg).1) ∧
    (∀ e, cfg.generate_hashes = true → cfg.hash_result = .error e →
        (compile_output_phase cfg).2 = some 2 ∧
          CompileEvent.openOutput ∉ (compile_output_phase cfg).1 ∧
          CompileEvent.writeOutput ∉ (compile_output_phase cfg).1) ∧
    (CompileEvent.openOutput ∈ (compile_output_phase cfg).1 →
        (compile_output_phase cfg).2 = none ∧
          ∃ rs, cfg.resolve_result = .ok rs) := by
  obtain ⟨gh, rr, hr⟩ := cfg
  refine ⟨?_, ?_, ?_⟩
  · intro e he
    have he2 : rr = .error e := he
    subst he2
    simp [compile_output_phase]
  · intro e hgh he
    have hgh2 : gh = true := hgh
    have he2 : hr = .error e := he
    subst hgh2
    subst he2
    cases rr with
    | error e2 => simp [compile_output_phase]
    | ok rs => simp [compile_output_phase]
  · intro hmem
    cases rr with
    | error e2 => simp [compile_output_phase] at hmem
    | ok rs =>
        cases gh
        · exact ⟨by simp [compile_output_phase], rs, rfl⟩
        · cases hr with
          | error e2 => simp [compile_output_phase] at hmem
          | ok hs => exact ⟨by simp [compile_output_phase], rs, rfl⟩

/-- Claim C5 (witness): a failing resolution and a failing hash
resolution, both exiting 2 with no output events. -/
theorem C5_witness :
    (compile_output_phase c5FailCfg).2 = some 2 ∧
      CompileEvent.openOutput ∉ (compile_output_phase c5FailCfg).1 ∧
      (compile_output_phase c5HashFailCfg).2 = some 2 ∧
      CompileEvent.writeOutput ∉ (compile_output_phase c5HashFailCfg).1 := by
  have h1 := (C5_no_output_on_failure c5FailCfg).1 (.noCandidateFound "six") rfl
  have h2 := (C5_no_output_on_failure c5HashFailCfg).2.1 (.otherError "hash fetch failed") rfl rfl
  exact ⟨h1.1, h1.2.1, h2.1, h2.2.2⟩

end PipTools
